import Mathlib

/-!
Shallow embedding of the SNES emulator core (CPU + memory map) of the
repository `nolanderc/SNES-emulator`.

Conventions of the embedding:
* Machine integers (`u8`, `u16`, `usize`) are modelled as `Nat`.  Every
  arithmetic operation of the source that can overflow is modelled
  explicitly: Rust's `+` on `u16` aborts on overflow, which is modelled by
  `checkedAdd16` returning `Except Fault Nat`.
* Rust panics (`panic!`, `unimplemented!`, slice-index out of bounds,
  arithmetic overflow) are modelled as `Except.error` with a dedicated
  `Fault` constructor, so that faulting executions are first-class values.
* The cartridge ROM slice `&[u8]` is modelled as a function `Nat → Nat`
  together with its length `romSize`; indexing past the length is the
  out-of-bounds fault, exactly as Rust slice indexing.
* The `title` field of the SNES header (a `&str` produced by
  `std::str::from_utf8(..).unwrap()`) is not modelled: no claim depends on
  it, and all concrete headers used below contain only ASCII bytes for
  which the source's decoding succeeds.
-/

set_option maxRecDepth 8192

/-- Faults: each constructor models one way the Rust source aborts. -/
inductive Fault where
  /-- `unimplemented!()` reached in the memory map's bank routing. -/
  | unmapped : Fault
  /-- `unimplemented!("opcode not implemented: {:x}")` in `fetch_instruction`. -/
  | unimplementedOpcode (opcode : Nat) : Fault
  /-- `unimplemented!` in `raw_address` / `arg_size` for unhandled addressing modes. -/
  | unimplementedAddress : Fault
  /-- `panic!("Attempted to get address of immediate instruction")` in `raw_address`. -/
  | immediateAddress : Fault
  /-- `panic!("Attempted write to ROM!")` in the `get_mut` arm for `Rom`. -/
  | writeProtection : Fault
  /-- Rust slice index out of bounds. -/
  | indexOutOfBounds : Fault
  /-- Rust `u16` arithmetic overflow abort. -/
  | overflow : Fault
  /-- `unimplemented!()` in `RomMakeup::from_byte` for a byte other than `0x20`. -/
  | unsupportedMappingMode : Fault
deriving DecidableEq, Repr

/-- Rust `!x` on `u8`: bitwise complement within 8 bits. -/
def not8 (x : Nat) : Nat := x ^^^ 0xFF

/-- Rust `u16::from_le_bytes([low, high])`. -/
def u16_from_le (low high : Nat) : Nat := low ||| (high <<< 8)

/-- Rust `u16` addition, which aborts on overflow. -/
def checkedAdd16 (a b : Nat) : Except Fault Nat :=
  if a + b ≤ 0xFFFF then .ok (a + b) else .error .overflow

/-- Models `ProcessorStatus(pub u8)` from `src/cpu/registers.rs`. -/
structure ProcessorStatus where
  val : Nat
deriving DecidableEq, Repr

namespace ProcessorStatus

/-! The `impl_register!` macro generates, for each `(offset, get, set)`
triple, a getter `(self.0 & (1 << offset)) != 0` and a setter
`self.0 |= (state as u8) << offset`.  The expansion is reproduced
verbatim for the eight flags. -/

def get_carry (p : ProcessorStatus) : Bool := p.val &&& (1 <<< 0) ≠ 0

def set_carry (p : ProcessorStatus) (state : Bool) : ProcessorStatus :=
  ⟨p.val ||| ((if state then 1 else 0) <<< 0)⟩

def get_zero (p : ProcessorStatus) : Bool := p.val &&& (1 <<< 1) ≠ 0

def set_zero (p : ProcessorStatus) (state : Bool) : ProcessorStatus :=
  ⟨p.val ||| ((if state then 1 else 0) <<< 1)⟩

def get_irq (p : ProcessorStatus) : Bool := p.val &&& (1 <<< 2) ≠ 0

def set_irq (p : ProcessorStatus) (state : Bool) : ProcessorStatus :=
  ⟨p.val ||| ((if state then 1 else 0) <<< 2)⟩

def get_decimal (p : ProcessorStatus) : Bool := p.val &&& (1 <<< 3) ≠ 0

def set_decimal (p : ProcessorStatus) (state : Bool) : ProcessorStatus :=
  ⟨p.val ||| ((if state then 1 else 0) <<< 3)⟩

def get_index (p : ProcessorStatus) : Bool := p.val &&& (1 <<< 4) ≠ 0

def set_index (p : ProcessorStatus) (state : Bool) : ProcessorStatus :=
  ⟨p.val ||| ((if state then 1 else 0) <<< 4)⟩

def get_accumulator (p : ProcessorStatus) : Bool := p.val &&& (1 <<< 5) ≠ 0

def set_accumulator (p : ProcessorStatus) (state : Bool) : ProcessorStatus :=
  ⟨p.val ||| ((if state then 1 else 0) <<< 5)⟩

def get_overflow (p : ProcessorStatus) : Bool := p.val &&& (1 <<< 6) ≠ 0

def set_overflow (p : ProcessorStatus) (state : Bool) : ProcessorStatus :=
  ⟨p.val ||| ((if state then 1 else 0) <<< 6)⟩

def get_negative (p : ProcessorStatus) : Bool := p.val &&& (1 <<< 7) ≠ 0

def set_negative (p : ProcessorStatus) (state : Bool) : ProcessorStatus :=
  ⟨p.val ||| ((if state then 1 else 0) <<< 7)⟩

end ProcessorStatus

/-- Models `CpuRegisters` from `src/cpu/registers.rs`; `Default` zero-initializes. -/
structure CpuRegisters where
  accumulator : Nat
  index_x : Nat
  index_y : Nat
  stack_pointer : Nat
  data_bank : Nat
  direct_page : Nat
  program_bank : Nat
  program_counter : Nat
  processor_status : ProcessorStatus
  emulation : Bool
deriving DecidableEq, Repr

def CpuRegisters.init : CpuRegisters :=
  { accumulator := 0, index_x := 0, index_y := 0, stack_pointer := 0
    data_bank := 0, direct_page := 0, program_bank := 0, program_counter := 0
    processor_status := ⟨0⟩, emulation := false }

/-- Models `InterruptVector` from `src/snes_header.rs`. -/
structure InterruptVector where
  cop : Nat
  brk : Nat
  abort : Nat
  nmi : Nat
  reset : Nat
  irq : Nat
deriving DecidableEq, Repr

/-- Decoder `InterruptVector::from_bytes`: six little-endian `u16` values. -/
def InterruptVector.from_bytes (bytes : Nat → Nat) : InterruptVector :=
  { cop := u16_from_le (bytes 0) (bytes 1)
    brk := u16_from_le (bytes 2) (bytes 3)
    abort := u16_from_le (bytes 4) (bytes 5)
    nmi := u16_from_le (bytes 6) (bytes 7)
    reset := u16_from_le (bytes 8) (bytes 9)
    irq := u16_from_le (bytes 10) (bytes 11) }

inductive RomMakeup where
  | LoRom : RomMakeup
deriving DecidableEq, Repr

/-- Decoder `RomMakeup::from_byte`: only `0x20` is recognized. -/
def RomMakeup.from_byte (byte : Nat) : Except Fault RomMakeup :=
  if byte = 0x20 then .ok .LoRom else .error .unsupportedMappingMode

inductive RomKind where
  | Rom | Ram | Sram | Dsp1 | Fx
deriving DecidableEq, Repr

/-- Models `SnesHeader` from `src/snes_header.rs` (the `title` text field is
not modelled, see the module comment). -/
structure SnesHeader where
  makeup : RomMakeup
  kind : RomKind
  rom_size : Nat
  sram_size : Nat
  creator_id : Nat
  version : Nat
  checksum_complement : Nat
  checksum : Nat
  native_interrupts : InterruptVector
  emulation_interrupts : InterruptVector
deriving DecidableEq, Repr

/-- Decoder `SnesHeader::from_bytes` over the 64-byte header window. -/
def SnesHeader.from_bytes (bytes : Nat → Nat) : Except Fault SnesHeader := do
  let makeup ← RomMakeup.from_byte (bytes 21)
  .ok { makeup := makeup
        kind := .Rom
        rom_size := bytes 23
        sram_size := bytes 24
        creator_id := bytes 25
        version := bytes 27
        checksum_complement := bytes 28
        checksum := bytes 29
        native_interrupts := InterruptVector.from_bytes (fun i => bytes (0x24 + i))
        emulation_interrupts := InterruptVector.from_bytes (fun i => bytes (0x34 + i)) }

/-- Models `HardwareRegisters`: the eight 1-byte cells generated by
`define_memory_access!` in `src/memory_map.rs`; `Default` zero-initializes. -/
structure HardwareRegisters where
  screen_display : Nat
  apu_io0 : Nat
  apu_io1 : Nat
  apu_io2 : Nat
  apu_io3 : Nat
  interrupt_enable : Nat
  hdma_enable : Nat
  dma_enable : Nat
deriving DecidableEq, Repr

def HardwareRegisters.init : HardwareRegisters :=
  { screen_display := 0, apu_io0 := 0, apu_io1 := 0, apu_io2 := 0
    apu_io3 := 0, interrupt_enable := 0, hdma_enable := 0, dma_enable := 0 }

/-- Models `MemoryAccess`: the enum generated by `define_memory_access!`
(one variant per hardware register, plus `Rom(usize)`). -/
inductive MemoryAccess where
  | ScreenDisplayRegister
  | ApuIoRegister0
  | ApuIoRegister1
  | ApuIoRegister2
  | ApuIoRegister3
  | InterruptEnableRegister
  | HdmaEnableRegister
  | DmaEnableRegister
  | Rom (index : Nat)
deriving DecidableEq, Repr

/-- Models `MemoryMap` from `src/memory_map.rs`: borrowed ROM slice (modelled as
byte function plus length), work RAM, save RAM (a unit placeholder) and
the hardware register bank. -/
structure MemoryMap where
  rom : Nat → Nat
  romSize : Nat
  wram : Nat → Nat
  hardware : HardwareRegisters

/-- Constructor `MemoryMap::new`. -/
def MemoryMap.new (rom : Nat → Nat) (romSize : Nat) : MemoryMap :=
  { rom := rom, romSize := romSize, wram := fun _ => 0, hardware := .init }

namespace MemoryMap

/-- Dispatch `get_hardware_register(addr)` generated by `impl_memory_mapping!`:
exact-address dispatch; every other address is `unimplemented!`. -/
def get_hardware_register (addr : Nat) : Except Fault MemoryAccess :=
  if addr = 0x2100 then .ok .ScreenDisplayRegister
  else if addr = 0x2140 then .ok .ApuIoRegister0
  else if addr = 0x2141 then .ok .ApuIoRegister1
  else if addr = 0x2142 then .ok .ApuIoRegister2
  else if addr = 0x2143 then .ok .ApuIoRegister3
  else if addr = 0x4200 then .ok .InterruptEnableRegister
  else if addr = 0x420c then .ok .HdmaEnableRegister
  else if addr = 0x420b then .ok .DmaEnableRegister
  else .error .unmapped

/-- Routing `get_bank_7e`: every sub-range is `unimplemented!()` in the source. -/
def get_bank_7e (addr : Nat) : Except Fault MemoryAccess :=
  if addr ≤ 0x1FFF then .error .unmapped
  else if addr ≤ 0x7FFF then .error .unmapped
  else .error .unmapped

/-- Routing `get_bank_7f`: `unimplemented!()`. -/
def get_bank_7f (_addr : Nat) : Except Fault MemoryAccess :=
  .error .unmapped

/-- Routing `get_bank_00_3f`: the LoROM layout of banks 0x00 to 0x3F. -/
def get_bank_00_3f (bank addr : Nat) : Except Fault MemoryAccess :=
  if addr ≤ 0x1FFF then get_bank_7e addr
  else if addr ≤ 0x20FF then .error .unmapped
  else if addr ≤ 0x21FF then get_hardware_register addr
  else if addr ≤ 0x2FFF then .error .unmapped
  else if addr ≤ 0x3FFF then .error .unmapped
  else if addr ≤ 0x40FF then get_hardware_register addr
  else if addr ≤ 0x41FF then .error .unmapped
  else if addr ≤ 0x44FF then get_hardware_register addr
  else if addr ≤ 0x5FFF then .error .unmapped
  else if addr ≤ 0x7FFF then .error .unmapped
  else .ok (.Rom (bank * 0x8000 + addr - 0x8000))

/-- Routing `get_bank_40_6f`: both sub-ranges `unimplemented!()`. -/
def get_bank_40_6f (_bank _addr : Nat) : Except Fault MemoryAccess :=
  .error .unmapped

/-- Routing `get_bank_70_7d`: both sub-ranges `unimplemented!()`. -/
def get_bank_70_7d (_bank _addr : Nat) : Except Fault MemoryAccess :=
  .error .unmapped

/-- Routing `get_bank_fe_ff`: both sub-ranges `unimplemented!()`. -/
def get_bank_fe_ff (_bank _addr : Nat) : Except Fault MemoryAccess :=
  .error .unmapped

/-- Routing `get_memory_access_lorom`: top-level bank dispatch with mirrors. -/
def get_memory_access_lorom (bank addr : Nat) : Except Fault MemoryAccess :=
  if bank ≤ 0x3F then get_bank_00_3f bank addr
  else if bank ≤ 0x6F then get_bank_40_6f bank addr
  else if bank ≤ 0x7D then get_bank_70_7d bank addr
  else if bank = 0x7E then get_bank_7e addr
  else if bank = 0x7F then get_bank_7f addr
  else if bank ≤ 0xBF then get_bank_00_3f (bank - 0x80) addr
  else if bank ≤ 0xEF then get_bank_40_6f (bank - 0xC0 + 0x40) addr
  else if bank ≤ 0xFD then get_bank_70_7d (bank - 0xF0 + 0x70) addr
  else get_bank_fe_ff bank addr

/-- Reader `access_byte`: read the resolved target (`memory.rom[index]` for ROM,
the register cell otherwise). -/
def access_byte (m : MemoryMap) : MemoryAccess → Except Fault Nat
  | .ScreenDisplayRegister => .ok m.hardware.screen_display
  | .ApuIoRegister0 => .ok m.hardware.apu_io0
  | .ApuIoRegister1 => .ok m.hardware.apu_io1
  | .ApuIoRegister2 => .ok m.hardware.apu_io2
  | .ApuIoRegister3 => .ok m.hardware.apu_io3
  | .InterruptEnableRegister => .ok m.hardware.interrupt_enable
  | .HdmaEnableRegister => .ok m.hardware.hdma_enable
  | .DmaEnableRegister => .ok m.hardware.dma_enable
  | .Rom index => if index < m.romSize then .ok (m.rom index) else .error .indexOutOfBounds

/-- Writer `access_byte_mut` followed by the assignment in `set_byte`: writing a
register cell updates it, writing `Rom(_)` is
`panic!("Attempted write to ROM!")`. -/
def set_access_byte (m : MemoryMap) (value : Nat) : MemoryAccess → Except Fault MemoryMap
  | .ScreenDisplayRegister => .ok { m with hardware := { m.hardware with screen_display := value } }
  | .ApuIoRegister0 => .ok { m with hardware := { m.hardware with apu_io0 := value } }
  | .ApuIoRegister1 => .ok { m with hardware := { m.hardware with apu_io1 := value } }
  | .ApuIoRegister2 => .ok { m with hardware := { m.hardware with apu_io2 := value } }
  | .ApuIoRegister3 => .ok { m with hardware := { m.hardware with apu_io3 := value } }
  | .InterruptEnableRegister => .ok { m with hardware := { m.hardware with interrupt_enable := value } }
  | .HdmaEnableRegister => .ok { m with hardware := { m.hardware with hdma_enable := value } }
  | .DmaEnableRegister => .ok { m with hardware := { m.hardware with dma_enable := value } }
  | .Rom _ => .error .writeProtection

/-- Reader `MemoryMap::get_byte`. -/
def get_byte (m : MemoryMap) (bank addr : Nat) : Except Fault Nat := do
  let access ← get_memory_access_lorom bank addr
  m.access_byte access

/-- Writer `MemoryMap::set_byte`. -/
def set_byte (m : MemoryMap) (bank addr value : Nat) : Except Fault MemoryMap := do
  let access ← get_memory_access_lorom bank addr
  m.set_access_byte value access

/-- Header access `get_lorom_header` / `get_snes_header`: decode the window
`rom[0x7fc0..=0x7fff]` (slicing panics when the ROM is shorter). -/
def get_snes_header (m : MemoryMap) : Except Fault SnesHeader :=
  if 0x7fff < m.romSize then SnesHeader.from_bytes (fun i => m.rom (0x7fc0 + i))
  else .error .indexOutOfBounds

end MemoryMap

/-- The `Address` enum from `src/cpu.rs`, all variants. -/
inductive Address where
  | Absolute (addr : Nat)
  | AbsoluteIndexedIndirect (offset : Nat)
  | AbsoluteIndexed (offset : Nat)
  | AbsoluteIndexedY (offset : Nat)
  | AbsoluteIndirect (addr : Nat)
  | AbsoluteLong (bank : Nat) (addr : Nat)
  | AbsoluteLongIndexed (bank : Nat) (addr : Nat)
  | Accumulator
  | BlockMove (src_bank : Nat) (dst_bank : Nat)
  | DirectIndexedIndirect (offset : Nat)
  | DirectIndexed (offset : Nat)
  | DirectIndexedY (offset : Nat)
  | DirectIndirectIndexed (offset : Nat)
  | DirectIndirectLongIndexed (offset : Nat)
  | DirectIndirectLong (offset : Nat)
  | DirectIndirect (offset : Nat)
  | Direct (offset : Nat)
  | Immediate8 (data : Nat)
  | Immediate16 (data : Nat)
  | Implied
  | ProgramCounterRelativeLong (offset : Int)
  | ProgramCounterRelative (offset : Int)
  | Stack
  | StackRelative (offset : Nat)
  | StackRelativeIndirectIndexed (offset : Nat)
deriving DecidableEq, Repr

/-- The `Instruction` enum from `src/cpu.rs`. -/
inductive Instruction where
  | DisableInterruptRequests
  | ClearCarry
  | ExchangeCarryEmulator
  | ResetStatusFlags (mask : Nat)
  | Jump (address : Address)
  | LoadAccumulator (address : Address)
  | StoreAccumulator (address : Address)
  | StoreZero (address : Address)
deriving DecidableEq, Repr

/-- Size `Address::arg_size`: operand byte count; unhandled variants are
`unimplemented!`. -/
def Address.arg_size : Address → Except Fault Nat
  | .Absolute _ => .ok 2
  | .AbsoluteLong _ _ => .ok 3
  | .Immediate8 _ => .ok 1
  | .Immediate16 _ => .ok 2
  | _ => .error .unimplementedAddress

/-- Size `Instruction::size`: one opcode byte plus the operand size. -/
def Instruction.size : Instruction → Except Fault Nat
  | .Jump addr | .StoreZero addr | .LoadAccumulator addr | .StoreAccumulator addr => do
      let n ← addr.arg_size
      .ok (1 + n)
  | .ResetStatusFlags _ => .ok 2
  | .DisableInterruptRequests | .ClearCarry | .ExchangeCarryEmulator => .ok 1

/-- The `Cpu` struct from `src/cpu.rs`. -/
structure Cpu where
  native_interrupts : InterruptVector
  emulation_interrupts : InterruptVector
  registers : CpuRegisters
deriving DecidableEq, Repr

namespace Cpu

/-- Constructor `Cpu::new`: extract both interrupt vector sets from the header. -/
def new (memory : MemoryMap) : Except Fault Cpu :=
  (memory.get_snes_header).map fun header =>
    { native_interrupts := header.native_interrupts
      emulation_interrupts := header.emulation_interrupts
      registers := CpuRegisters.init }

/-- Reset operation `Cpu::reset`. -/
def reset (cpu : Cpu) : Cpu :=
  let r0 := cpu.registers
  let r1 := { r0 with
    program_counter := cpu.emulation_interrupts.reset
    program_bank := 0
    stack_pointer := 0x0100
    index_x := 0
    index_y := 0
    accumulator := 0
    emulation := true }
  let p1 := r1.processor_status.set_accumulator true
  let p2 := p1.set_index true
  let p3 := p2.set_decimal false
  let p4 := p3.set_irq true
  let p5 := p4.set_carry true
  { cpu with registers := { r1 with processor_status := p5 } }

/-- Fetch helper `Cpu::get_instruction_arg`: read the byte at
`(program_bank, program_counter + delta)`. -/
def get_instruction_arg (cpu : Cpu) (memory : MemoryMap) (delta : Nat) : Except Fault Nat := do
  let a ← checkedAdd16 cpu.registers.program_counter delta
  memory.get_byte cpu.registers.program_bank a

/-- Operand decoder `Cpu::get_arg_absolute`. -/
def get_arg_absolute (cpu : Cpu) (memory : MemoryMap) : Except Fault Address := do
  let low ← cpu.get_instruction_arg memory 1
  let high ← cpu.get_instruction_arg memory 2
  .ok (.Absolute (u16_from_le low high))

/-- Operand decoder `Cpu::get_arg_absolute_long`. -/
def get_arg_absolute_long (cpu : Cpu) (memory : MemoryMap) : Except Fault Address := do
  let low ← cpu.get_instruction_arg memory 1
  let high ← cpu.get_instruction_arg memory 2
  let bank ← cpu.get_instruction_arg memory 3
  .ok (.AbsoluteLong bank (u16_from_le low high))

/-- Operand decoder `Cpu::get_arg_immediate_8bit`. -/
def get_arg_immediate_8bit (cpu : Cpu) (memory : MemoryMap) : Except Fault Address := do
  let data ← cpu.get_instruction_arg memory 1
  .ok (.Immediate8 data)

/-- Operand decoder `Cpu::get_arg_immediate_16bit`. -/
def get_arg_immediate_16bit (cpu : Cpu) (memory : MemoryMap) : Except Fault Address := do
  let low ← cpu.get_instruction_arg memory 1
  let high ← cpu.get_instruction_arg memory 2
  .ok (.Immediate16 (u16_from_le low high))

/-- Decoder `Cpu::fetch_instruction`: opcode dispatch, width-dependent for `0xa9`. -/
def fetch_instruction (cpu : Cpu) (memory : MemoryMap) : Except Fault Instruction := do
  let opcode ← cpu.get_instruction_arg memory 0
  if opcode = 0x18 then .ok .ClearCarry
  else if opcode = 0x4c then .Jump <$> cpu.get_arg_absolute memory
  else if opcode = 0x5c then .Jump <$> cpu.get_arg_absolute_long memory
  else if opcode = 0x78 then .ok .DisableInterruptRequests
  else if opcode = 0x9c then .StoreZero <$> cpu.get_arg_absolute memory
  else if opcode = 0x8d then .StoreAccumulator <$> cpu.get_arg_absolute memory
  else if opcode = 0xa9 then
    if cpu.registers.processor_status.get_accumulator then
      .LoadAccumulator <$> cpu.get_arg_immediate_8bit memory
    else
      .LoadAccumulator <$> cpu.get_arg_immediate_16bit memory
  else if opcode = 0xc2 then .ResetStatusFlags <$> cpu.get_instruction_arg memory 1
  else if opcode = 0xfb then .ok .ExchangeCarryEmulator
  else .error (.unimplementedOpcode opcode)

/-- Advance `Cpu::advance`: `program_counter += delta` (`u16` addition). -/
def advance (cpu : Cpu) (delta : Nat) : Except Fault Cpu :=
  (checkedAdd16 cpu.registers.program_counter delta).map fun pc =>
    { cpu with registers := { cpu.registers with program_counter := pc } }

/-- Resolver `Cpu::raw_address`: resolve an addressing mode to `(bank, addr)`. -/
def raw_address (cpu : Cpu) : Address → Except Fault (Nat × Nat)
  | .Absolute addr => .ok (cpu.registers.data_bank, addr)
  | .AbsoluteLong bank addr => .ok (bank, addr)
  | .Immediate8 _ | .Immediate16 _ => .error .immediateAddress
  | _ => .error .unimplementedAddress

/-- Reader `Cpu::get_data`: the value an address points to (1 or 2 bytes). -/
def get_data (cpu : Cpu) (memory : MemoryMap) (address : Address) (wide : Bool) :
    Except Fault Nat :=
  match address with
  | .Immediate8 data => .ok data
  | .Immediate16 data => .ok data
  | _ => do
      let (bank, addr) ← cpu.raw_address address
      let low ← memory.get_byte bank addr
      if wide then do
        let addr1 ← checkedAdd16 addr 1
        let high ← memory.get_byte bank addr1
        .ok (u16_from_le low high)
      else
        .ok low

/-- Instruction `Cpu::jump`: set program bank and counter to the resolved target. -/
def jump (cpu : Cpu) (address : Address) : Except Fault Cpu :=
  (cpu.raw_address address).map fun (bank, addr) =>
    { cpu with registers :=
      { cpu.registers with program_bank := bank, program_counter := addr } }

/-- Instruction `Cpu::load_accumulator`. -/
def load_accumulator (cpu : Cpu) (memory : MemoryMap) (address : Address) :
    Except Fault Cpu :=
  let wide := !cpu.registers.processor_status.get_accumulator
  (cpu.get_data memory address wide).map fun data =>
    { cpu with registers := { cpu.registers with accumulator := data } }

/-- Instruction `Cpu::store_accumulator`: write the low byte, then (16-bit mode only)
the high byte at `addr + 1`. -/
def store_accumulator (cpu : Cpu) (memory : MemoryMap) (address : Address) :
    Except Fault MemoryMap := do
  let (bank, addr) ← cpu.raw_address address
  let low := cpu.registers.accumulator &&& 0xff
  let memory ← memory.set_byte bank addr low
  let wide := !cpu.registers.processor_status.get_accumulator
  if wide then do
    let high := (cpu.registers.accumulator &&& 0xff00) >>> 8
    let addr1 ← checkedAdd16 addr 1
    memory.set_byte bank addr1 high
  else
    .ok memory

/-- Instruction `Cpu::store`: write one byte at the resolved address. -/
def store (cpu : Cpu) (value : Nat) (memory : MemoryMap) (address : Address) :
    Except Fault MemoryMap := do
  let (bank, addr) ← cpu.raw_address address
  memory.set_byte bank addr value

/-- Executor `Cpu::execute`. -/
def execute (cpu : Cpu) (instruction : Instruction) (memory : MemoryMap) :
    Except Fault (Cpu × MemoryMap) :=
  match instruction with
  | .Jump address => (cpu.jump address).map fun cpu => (cpu, memory)
  | .DisableInterruptRequests =>
      .ok ({ cpu with registers := { cpu.registers with
        processor_status := cpu.registers.processor_status.set_irq false } }, memory)
  | .ClearCarry =>
      .ok ({ cpu with registers := { cpu.registers with
        processor_status := cpu.registers.processor_status.set_carry false } }, memory)
  | .ExchangeCarryEmulator =>
      let carry := cpu.registers.processor_status.get_carry
      .ok ({ cpu with registers := { cpu.registers with emulation := carry } }, memory)
  | .ResetStatusFlags mask =>
      .ok ({ cpu with registers := { cpu.registers with
        processor_status := ⟨not8 ((not8 cpu.registers.processor_status.val) ||| mask)⟩ } },
        memory)
  | .LoadAccumulator address =>
      (cpu.load_accumulator memory address).map fun cpu => (cpu, memory)
  | .StoreAccumulator address =>
      (cpu.store_accumulator memory address).map fun memory => (cpu, memory)
  | .StoreZero address =>
      (cpu.store 0 memory address).map fun memory => (cpu, memory)

/-- Step `Cpu::tick`: fetch, advance by the instruction size, execute. -/
def tick (cpu : Cpu) (memory : MemoryMap) : Except Fault (Cpu × MemoryMap) := do
  let instruction ← cpu.fetch_instruction memory
  let size ← instruction.size
  let cpu ← cpu.advance size
  cpu.execute instruction memory

end Cpu

/-- Iterate `tick` a given number of times (the body of `Snes::run`). -/
def ticks : Nat → Cpu → MemoryMap → Except Fault (Cpu × MemoryMap)
  | 0, cpu, memory => .ok (cpu, memory)
  | n + 1, cpu, memory => do
      let (cpu, memory) ← cpu.tick memory
      ticks n cpu memory

/-! ## Helper lemmas and concrete fixtures -/

/-- Bits at position 8 and above of a byte value are clear. -/
theorem testBit_ge_eight {x i : Nat} (hx : x < 256) (hi : 8 ≤ i) :
    x.testBit i = false := by
  apply Nat.testBit_lt_two_pow
  calc x < 256 := hx
    _ = 2 ^ 8 := by norm_num
    _ ≤ 2 ^ i := Nat.pow_le_pow_right (by norm_num) hi

/-- De Morgan within 8 bits: the REP formula `!((!p) | mask)` of the source
equals `p &&& (not8 mask)` on byte values. -/
theorem rep_formula (s m : Nat) (hs : s < 256) (hm : m < 256) :
    not8 (not8 s ||| m) = s &&& not8 m := by
  unfold not8
  apply Nat.eq_of_testBit_eq
  intro i
  have hff : (0xFF : Nat) = 2 ^ 8 - 1 := by norm_num
  rw [hff]
  simp only [Nat.testBit_xor, Nat.testBit_or, Nat.testBit_and,
    Nat.testBit_two_pow_sub_one]
  by_cases h8 : i < 8
  · simp only [decide_eq_true h8]
    cases s.testBit i <;> cases m.testBit i <;> rfl
  · have hsb := testBit_ge_eight hs (Nat.le_of_not_lt h8)
    have hmb := testBit_ge_eight hm (Nat.le_of_not_lt h8)
    simp [h8, hsb, hmb]

/-- Bit reading of `s &&& not8 m` on byte values. -/
theorem testBit_and_not8 (s m : Nat) (hs : s < 256) (hm : m < 256) (i : Nat) :
    (s &&& not8 m).testBit i = (s.testBit i && !m.testBit i) := by
  unfold not8
  have hff : (0xFF : Nat) = 2 ^ 8 - 1 := by norm_num
  rw [hff]
  simp only [Nat.testBit_and, Nat.testBit_xor, Nat.testBit_two_pow_sub_one]
  by_cases h8 : i < 8
  · simp [h8]
  · have hsb := testBit_ge_eight hs (Nat.le_of_not_lt h8)
    have hmb := testBit_ge_eight hm (Nat.le_of_not_lt h8)
    simp [h8, hsb, hmb]

/-- An all-zero 32 KiB ROM image. -/
def mem0 : MemoryMap := MemoryMap.new (fun _ => 0) 0x8000

/-- A CPU fixture with processor status `0x3F` and otherwise zeroed state. -/
def cpu0 : Cpu :=
  { native_interrupts := ⟨0, 0, 0, 0, 0, 0⟩
    emulation_interrupts := ⟨0, 0, 0, 0, 0, 0⟩
    registers := { CpuRegisters.init with processor_status := ⟨0x3F⟩ } }

/-! ## Claim C1 -/

/-- Claim C1: for every 8-bit processor-status value and every 8-bit mask,
executing the `ResetStatusFlags(mask)` instruction replaces the processor
status by `status & !mask` — every bit set in the mask is cleared and every
bit not set in the mask is unchanged — and leaves the memory untouched. -/
theorem c1_resetStatusFlags_clears_mask (cpu : Cpu) (memory : MemoryMap)
    (mask : Nat) (hs : cpu.registers.processor_status.val ≤ 0xFF)
    (hm : mask ≤ 0xFF) :
    ∃ cm : Cpu × MemoryMap,
      cpu.execute (.ResetStatusFlags mask) memory = .ok cm ∧
      cm.1.registers.processor_status.val
        = cpu.registers.processor_status.val &&& not8 mask ∧
      (∀ i, cm.1.registers.processor_status.val.testBit i
        = (cpu.registers.processor_status.val.testBit i && !mask.testBit i)) ∧
      cm.2 = memory := by
  have hs' : cpu.registers.processor_status.val < 256 := by omega
  have hm' : mask < 256 := by omega
  have hrep := rep_formula cpu.registers.processor_status.val mask hs' hm'
  refine ⟨_, rfl, ?_, ?_, rfl⟩
  · exact hrep
  · intro i
    show (not8 (not8 cpu.registers.processor_status.val ||| mask)).testBit i = _
    rw [hrep]
    exact testBit_and_not8 _ _ hs' hm' i

/-- Witness for C1 at status `0x3F`, mask `0x35`. -/
theorem c1_witness :
    cpu0.registers.processor_status.val ≤ 0xFF ∧ (0x35 : Nat) ≤ 0xFF ∧
    ∃ cm : Cpu × MemoryMap,
      cpu0.execute (.ResetStatusFlags 0x35) mem0 = .ok cm ∧
      cm.1.registers.processor_status.val
        = cpu0.registers.processor_status.val &&& not8 0x35 ∧
      (∀ i, cm.1.registers.processor_status.val.testBit i
        = (cpu0.registers.processor_status.val.testBit i && !(0x35 : Nat).testBit i)) ∧
      cm.2 = mem0 :=
  ⟨by decide, by decide,
    c1_resetStatusFlags_clears_mask cpu0 mem0 0x35 (by decide) (by decide)⟩

/-! ## Claim C2 -/

/-- Claim C2 (code bug evaluation): the generated flag setter ORs the new
bit into the status byte without clearing first, so calling `set_carry(false)`
on a status whose carry bit is `1` leaves the bit set — the status byte is
unchanged at `0x01` and `get_carry` still reads `true`, contradicting the
claim that the flag's bit ends up equal to the argument. -/
theorem c2_set_false_is_noop :
    (ProcessorStatus.set_carry ⟨0x01⟩ false).val = 0x01 ∧
    (ProcessorStatus.set_carry ⟨0x01⟩ false).get_carry = true ∧
    (ProcessorStatus.set_negative ⟨0x80⟩ false).val = 0x80 ∧
    (ProcessorStatus.set_negative ⟨0x80⟩ false).get_negative = true := by
  decide

/-! ## Claim C3 -/

/-- A CPU fixture whose emulation-mode RESET vector is `0x8000` and whose
prior processor status has the decimal flag set (value `0x08`). -/
def c3_cpu : Cpu :=
  { native_interrupts := ⟨0, 0, 0, 0, 0, 0⟩
    emulation_interrupts := ⟨0, 0, 0, 0, 0x8000, 0⟩
    registers := { accumulator := 5, index_x := 6, index_y := 7
                   stack_pointer := 0x1FF, data_bank := 1, direct_page := 2
                   program_bank := 3, program_counter := 4
                   processor_status := ⟨0x08⟩, emulation := false } }

/-- Claim C3 (code bug evaluation): after `reset` from a prior state whose
decimal flag was set, every claimed register value is established except the
decimal flag, which remains `1` because `set_decimal(false)` is a no-op
(the setter only ORs bits in); the claim requires decimal `= 0`. -/
theorem c3_reset_decimal_stuck :
    (c3_cpu.reset).registers.program_counter = 0x8000 ∧
    (c3_cpu.reset).registers.program_bank = 0 ∧
    (c3_cpu.reset).registers.stack_pointer = 0x0100 ∧
    (c3_cpu.reset).registers.accumulator = 0 ∧
    (c3_cpu.reset).registers.index_x = 0 ∧
    (c3_cpu.reset).registers.index_y = 0 ∧
    (c3_cpu.reset).registers.emulation = true ∧
    (c3_cpu.reset).registers.processor_status.get_accumulator = true ∧
    (c3_cpu.reset).registers.processor_status.get_index = true ∧
    (c3_cpu.reset).registers.processor_status.get_irq = true ∧
    (c3_cpu.reset).registers.processor_status.get_carry = true ∧
    (c3_cpu.reset).registers.processor_status.get_decimal = true := by
  decide

/-! ## Claim C4 -/

/-- Claim C4 (counterexample): `get_byte(0x00, 0x0000)` does not succeed —
the low-RAM alias delegates to the bank-`0x7E` handler, whose every arm is
`unimplemented!()`, so the access faults instead of returning work RAM. -/
theorem c4_counterexample : mem0.get_byte 0 0 = .error .unmapped := by rfl

/-- Claim C4 (amended): for every bank in `0x00..0x3F` and every offset in
`0x0000..0x1FFF`, `get_byte` faults with the unmapped-address fault — the
work-RAM alias is routed to the unimplemented bank-`0x7E` handler and never
returns a byte. -/
theorem c4_low_ram_alias_faults (m : MemoryMap) (bank addr : Nat)
    (hb : bank ≤ 0x3F) (ha : addr ≤ 0x1FFF) :
    m.get_byte bank addr = .error .unmapped := by
  have hacc : MemoryMap.get_memory_access_lorom bank addr = .error .unmapped := by
    unfold MemoryMap.get_memory_access_lorom MemoryMap.get_bank_00_3f
      MemoryMap.get_bank_7e
    rw [if_pos hb, if_pos ha, if_pos ha]
  unfold MemoryMap.get_byte
  rw [hacc]
  rfl

/-- Witness for the amended C4 at bank `0x05`, offset `0x0100`. -/
theorem c4_witness :
    (0x05 : Nat) ≤ 0x3F ∧ (0x0100 : Nat) ≤ 0x1FFF ∧
    mem0.get_byte 0x05 0x0100 = .error .unmapped :=
  ⟨by decide, by decide, c4_low_ram_alias_faults mem0 0x05 0x0100 (by decide) (by decide)⟩

/-! ## Bind reduction helpers -/

/-- Reduction of `Except` bind on a success value. -/
theorem bind_ok_eq {ε α β : Type} (a : α) (f : α → Except ε β) :
    (Except.ok a >>= f) = f a := rfl

/-- Reduction of `Except` bind on an error value. -/
theorem bind_error_eq {ε α β : Type} (e : ε) (f : α → Except ε β) :
    ((Except.error e : Except ε α) >>= f) = Except.error e := rfl

/-! ## Claim C8 -/

/-- Claim C8: a write whose address resolves to a ROM location fails with
the write-protection fault, and every successful `set_byte` leaves the ROM
bytes (and length) untouched — so no sequence of `get_byte`/`set_byte`
operations ever mutates ROM (`get_byte` is pure, and each `set_byte` step
preserves the ROM component by the second conjunct). -/
theorem c8_rom_write_protected :
    (∀ (m : MemoryMap) (bank addr value index : Nat),
      MemoryMap.get_memory_access_lorom bank addr = .ok (.Rom index) →
      m.set_byte bank addr value = .error .writeProtection) ∧
    (∀ (m m' : MemoryMap) (bank addr value : Nat),
      m.set_byte bank addr value = .ok m' →
      m'.rom = m.rom ∧ m'.romSize = m.romSize) := by
  constructor
  · intro m bank addr value index h
    unfold MemoryMap.set_byte
    rw [h, bind_ok_eq]
    rfl
  · intro m m' bank addr value h
    unfold MemoryMap.set_byte at h
    cases hacc : MemoryMap.get_memory_access_lorom bank addr with
    | error e =>
      rw [hacc, bind_error_eq] at h
      exact Except.noConfusion h
    | ok a =>
      rw [hacc, bind_ok_eq] at h
      cases a <;> simp only [MemoryMap.set_access_byte] at h <;>
        first
          | (cases h; exact ⟨rfl, rfl⟩)
          | exact Except.noConfusion h

/-- The memory map obtained by writing `7` to the screen-display register. -/
def c8_m1 : MemoryMap :=
  { mem0 with hardware := { mem0.hardware with screen_display := 7 } }

/-- Witness for C8: `(0x00, 0x8000)` resolves to ROM offset 0 and the write
faults; `(0x00, 0x2100)` is a register write that succeeds and leaves ROM
untouched. -/
theorem c8_witness :
    MemoryMap.get_memory_access_lorom 0 0x8000 = .ok (.Rom 0) ∧
    mem0.set_byte 0 0x8000 7 = .error .writeProtection ∧
    mem0.set_byte 0 0x2100 7 = .ok c8_m1 ∧
    c8_m1.rom = mem0.rom ∧ c8_m1.romSize = mem0.romSize := by
  have hset : mem0.set_byte 0 0x2100 7 = .ok c8_m1 := by rfl
  exact ⟨by rfl, c8_rom_write_protected.1 mem0 0 0x8000 7 0 (by rfl), hset,
    c8_rom_write_protected.2 mem0 c8_m1 0 0x2100 7 hset⟩

/-! ## Claim C9 -/

/-- Claim C9: for every bank in `0x00..0x3F` and every 16-bit offset,
`get_byte(bank, addr)` and `get_byte(bank + 0x80, addr)` produce identical
results — the same byte on success and the same fault on failure. -/
theorem c9_bank_mirror (m : MemoryMap) (bank addr : Nat)
    (hb : bank ≤ 0x3F) (_ha : addr ≤ 0xFFFF) :
    m.get_byte bank addr = m.get_byte (bank + 0x80) addr := by
  have h1 : MemoryMap.get_memory_access_lorom (bank + 0x80) addr
      = MemoryMap.get_bank_00_3f (bank + 0x80 - 0x80) addr := by
    unfold MemoryMap.get_memory_access_lorom
    rw [if_neg (by omega), if_neg (by omega), if_neg (by omega),
      if_neg (by omega), if_neg (by omega), if_pos (by omega)]
  have h2 : MemoryMap.get_memory_access_lorom bank addr
      = MemoryMap.get_bank_00_3f bank addr := by
    unfold MemoryMap.get_memory_access_lorom
    rw [if_pos hb]
  have h3 : bank + 0x80 - 0x80 = bank := by omega
  have hacc : MemoryMap.get_memory_access_lorom (bank + 0x80) addr
      = MemoryMap.get_memory_access_lorom bank addr := by
    rw [h1, h3, h2]
  unfold MemoryMap.get_byte
  rw [hacc]

/-- Witness for C9 at bank `0x00` mirrored to `0x80`, offset `0x8000`. -/
theorem c9_witness :
    (0 : Nat) ≤ 0x3F ∧ (0x8000 : Nat) ≤ 0xFFFF ∧
    mem0.get_byte 0 0x8000 = mem0.get_byte (0 + 0x80) 0x8000 :=
  ⟨by decide, by decide, c9_bank_mirror mem0 0 0x8000 (by decide) (by decide)⟩

/-! ## Claim C10 -/

/-- Claim C10: 16-bit address arithmetic at the stepping interface is
non-wrapping — fetching an operand byte at `program_counter + delta`,
advancing the counter, and reading the high byte of a 16-bit operand at
`addr + 1` all fault with the arithmetic-overflow fault when the sum would
exceed `0xFFFF`, instead of wrapping to offset `0x0000`. -/
theorem c10_overflow_faults :
    (∀ (cpu : Cpu) (memory : MemoryMap) (delta : Nat),
      0xFFFF < cpu.registers.program_counter + delta →
      cpu.get_instruction_arg memory delta = .error .overflow) ∧
    (∀ (cpu : Cpu) (delta : Nat),
      0xFFFF < cpu.registers.program_counter + delta →
      cpu.advance delta = .error .overflow) ∧
    (∀ (cpu : Cpu) (memory : MemoryMap) (address : Address) (bank value : Nat),
      cpu.raw_address address = .ok (bank, 0xFFFF) →
      memory.get_byte bank 0xFFFF = .ok value →
      cpu.get_data memory address true = .error .overflow) := by
  refine ⟨?_, ?_, ?_⟩
  · intro cpu memory delta h
    unfold Cpu.get_instruction_arg checkedAdd16
    rw [if_neg (by omega), bind_error_eq]
  · intro cpu delta h
    unfold Cpu.advance checkedAdd16
    rw [if_neg (by omega)]
    rfl
  · intro cpu memory address bank value hraw hget
    cases address
    case Absolute x =>
      have h2 : Except.ok ((cpu.registers.data_bank, x) : Nat × Nat)
          = .ok (bank, 0xFFFF) := hraw
      injection h2 with h3
      rw [Prod.mk.injEq] at h3
      obtain ⟨hb, hx⟩ := h3
      subst hx
      have h1 : cpu.raw_address (.Absolute 0xFFFF) = .ok (bank, 0xFFFF) := by
        simp [Cpu.raw_address, hb]
      show (do
        let (bank, addr) ← cpu.raw_address (.Absolute 0xFFFF)
        let low ← memory.get_byte bank addr
        if true then do
          let addr1 ← checkedAdd16 addr 1
          let high ← memory.get_byte bank addr1
          .ok (u16_from_le low high)
        else
          .ok low) = .error .overflow
      rw [h1, bind_ok_eq]
      show (do
        let low ← memory.get_byte bank 0xFFFF
        let addr1 ← checkedAdd16 0xFFFF 1
        let high ← memory.get_byte bank addr1
        (.ok (u16_from_le low high) : Except Fault Nat)) = .error .overflow
      rw [hget, bind_ok_eq]
      rfl
    case AbsoluteLong b x =>
      have h2 : Except.ok ((b, x) : Nat × Nat) = .ok (bank, 0xFFFF) := hraw
      injection h2 with h3
      rw [Prod.mk.injEq] at h3
      obtain ⟨hb, hx⟩ := h3
      subst hx
      subst hb
      have h1 : cpu.raw_address (.AbsoluteLong b 0xFFFF) = .ok (b, 0xFFFF) := rfl
      show (do
        let (bank, addr) ← cpu.raw_address (.AbsoluteLong b 0xFFFF)
        let low ← memory.get_byte bank addr
        if true then do
          let addr1 ← checkedAdd16 addr 1
          let high ← memory.get_byte bank addr1
          .ok (u16_from_le low high)
        else
          .ok low) = .error .overflow
      rw [h1, bind_ok_eq]
      show (do
        let low ← memory.get_byte b 0xFFFF
        let addr1 ← checkedAdd16 0xFFFF 1
        let high ← memory.get_byte b addr1
        (.ok (u16_from_le low high) : Except Fault Nat)) = .error .overflow
      rw [hget, bind_ok_eq]
      rfl
    all_goals exact Except.noConfusion hraw

/-- A CPU fixture sitting at the last program-counter value `0xFFFF`. -/
def c10_cpu : Cpu :=
  { native_interrupts := ⟨0, 0, 0, 0, 0, 0⟩
    emulation_interrupts := ⟨0, 0, 0, 0, 0, 0⟩
    registers := { CpuRegisters.init with program_counter := 0xFFFF } }

/-- Witness for C10: at `program_counter = 0xFFFF` the operand fetch at
delta 1 and the advance by 1 fault; a wide read of `(0x00, 0xFFFF)` (ROM
offset `0x7FFF`, readable) faults on the high byte at `0xFFFF + 1`. -/
theorem c10_witness :
    (0xFFFF : Nat) < 0xFFFF + 1 ∧
    c10_cpu.get_instruction_arg mem0 1 = .error .overflow ∧
    c10_cpu.advance 1 = .error .overflow ∧
    cpu0.raw_address (.Absolute 0xFFFF) = .ok (0, 0xFFFF) ∧
    mem0.get_byte 0 0xFFFF = .ok 0 ∧
    cpu0.get_data mem0 (.Absolute 0xFFFF) true = .error .overflow := by
  have hraw : cpu0.raw_address (.Absolute 0xFFFF) = .ok (0, 0xFFFF) := by rfl
  have hget : mem0.get_byte 0 0xFFFF = .ok 0 := by rfl
  exact ⟨by omega,
    c10_overflow_faults.1 c10_cpu mem0 1 (by decide),
    c10_overflow_faults.2.1 c10_cpu 1 (by decide),
    hraw, hget,
    c10_overflow_faults.2.2 cpu0 mem0 (.Absolute 0xFFFF) 0 0 hraw hget⟩

/-! ## Claim C6 -/

/-- Advancing the program counter does not change how addresses resolve:
`raw_address` reads only the data-bank register. -/
theorem raw_address_advance (cpu : Cpu) (delta : Nat) (cpu' : Cpu) (a : Address)
    (h : cpu.advance delta = .ok cpu') :
    cpu'.raw_address a = cpu.raw_address a := by
  unfold Cpu.advance checkedAdd16 at h
  by_cases hc : cpu.registers.program_counter + delta ≤ 0xFFFF
  · rw [if_pos hc] at h
    have h2 : Except.ok
        ({ cpu with registers := { cpu.registers with
            program_counter := cpu.registers.program_counter + delta } }) = .ok cpu' := h
    injection h2 with h3
    subst h3
    cases a <;> rfl
  · rw [if_neg hc] at h
    exact Except.noConfusion h

/-- Claim C6: when the fetched instruction is a `Jump` that resolves to
bank `b` and offset `addr`, one `tick` leaves `program_bank = b` and
`program_counter = addr` exactly — the generic size-based advance is
overwritten by the jump target, not added to it. -/
theorem c6_jump_sets_pc (cpu : Cpu) (memory : MemoryMap) (a : Address)
    (bank addr : Nat) (cm : Cpu × MemoryMap)
    (hf : cpu.fetch_instruction memory = .ok (.Jump a))
    (hr : cpu.raw_address a = .ok (bank, addr))
    (ht : cpu.tick memory = .ok cm) :
    cm.1.registers.program_bank = bank ∧ cm.1.registers.program_counter = addr := by
  unfold Cpu.tick at ht
  rw [hf, bind_ok_eq] at ht
  cases hsz : (Instruction.Jump a).size with
  | error e =>
    rw [hsz, bind_error_eq] at ht
    exact Except.noConfusion ht
  | ok size =>
    rw [hsz, bind_ok_eq] at ht
    cases hadv : cpu.advance size with
    | error e =>
      rw [hadv, bind_error_eq] at ht
      exact Except.noConfusion ht
    | ok cpu2 =>
      rw [hadv, bind_ok_eq] at ht
      have hr2 : cpu2.raw_address a = .ok (bank, addr) := by
        rw [raw_address_advance cpu size cpu2 a hadv, hr]
      simp only [Cpu.execute, Cpu.jump] at ht
      rw [hr2] at ht
      have ht2 : Except.ok
          (({ cpu2 with registers := { cpu2.registers with
              program_bank := bank, program_counter := addr } }, memory)
            : Cpu × MemoryMap) = .ok cm := ht
      injection ht2 with ht3
      rw [← ht3]
      exact ⟨rfl, rfl⟩

/-- A three-byte ROM program `4C 00 90` (JMP $9000) at the start of the
LoROM window. -/
def c6_rom : Nat → Nat := fun i =>
  if i = 0 then 0x4c else if i = 1 then 0x00 else if i = 2 then 0x90 else 0

def c6_mem : MemoryMap := MemoryMap.new c6_rom 0x8000

/-- A CPU fixture about to execute the jump at `(0x00, 0x8000)`. -/
def c6_cpu : Cpu :=
  { native_interrupts := ⟨0, 0, 0, 0, 0, 0⟩
    emulation_interrupts := ⟨0, 0, 0, 0, 0, 0⟩
    registers := { CpuRegisters.init with program_counter := 0x8000 } }

/-- Witness for C6: executing `JMP $9000` from `(0x00, 0x8000)` lands at
exactly `(0x00, 0x9000)`. -/
theorem c6_witness :
    c6_cpu.fetch_instruction c6_mem = .ok (.Jump (.Absolute 0x9000)) ∧
    c6_cpu.raw_address (.Absolute 0x9000) = .ok (0, 0x9000) ∧
    ∃ cm : Cpu × MemoryMap, c6_cpu.tick c6_mem = .ok cm ∧
      cm.1.registers.program_bank = 0 ∧ cm.1.registers.program_counter = 0x9000 := by
  have hf : c6_cpu.fetch_instruction c6_mem = .ok (.Jump (.Absolute 0x9000)) := by rfl
  have hr : c6_cpu.raw_address (.Absolute 0x9000) = .ok (0, 0x9000) := by rfl
  have ht : ∃ cm : Cpu × MemoryMap, c6_cpu.tick c6_mem = .ok cm := ⟨_, rfl⟩
  obtain ⟨cm, hcm⟩ := ht
  exact ⟨hf, hr, cm, hcm,
    c6_jump_sets_pc c6_cpu c6_mem (.Absolute 0x9000) 0 0x9000 cm hf hr hcm⟩

/-! ## Claim C7 -/

/-- Reassembling the low byte and the shifted-down high byte of a 16-bit
value by `u16_from_le` yields the value back. -/
theorem u16_reassemble (a : Nat) (h : a ≤ 0xFFFF) :
    u16_from_le (a &&& 0xFF) ((a &&& 0xFF00) >>> 8) = a := by
  unfold u16_from_le
  apply Nat.eq_of_testBit_eq
  intro i
  have hff : (0xFF : Nat) = 2 ^ 8 - 1 := by norm_num
  have hff00 : (0xFF00 : Nat) = (2 ^ 8 - 1) <<< 8 := by decide
  rw [hff, hff00]
  simp only [Nat.testBit_or, Nat.testBit_and, Nat.testBit_shiftLeft,
    Nat.testBit_shiftRight, Nat.testBit_two_pow_sub_one]
  by_cases h8 : i < 8
  · have hn : ¬ 8 ≤ i := by omega
    simp [h8, hn]
  · have h8' : 8 ≤ i := Nat.le_of_not_lt h8
    have hsum : 8 + (i - 8) = i := by omega
    by_cases h16 : i < 16
    · have hm8 : i - 8 < 8 := by omega
      simp [h8, h8', hsum, hm8]
    · have hbig : a.testBit i = false := by
        apply Nat.testBit_lt_two_pow
        calc a ≤ 0xFFFF := h
          _ < 2 ^ 16 := by norm_num
          _ ≤ 2 ^ i := Nat.pow_le_pow_right (by norm_num) (by omega)
      simp [h8, h8', hsum, hbig]

/-- Reading through `get_data` in 8-bit (narrow) shape: one byte. -/
theorem get_data_narrow (cpu : Cpu) (m : MemoryMap) (a : Address)
    (bank addr v : Nat) (hraw : cpu.raw_address a = .ok (bank, addr))
    (hget : m.get_byte bank addr = .ok v) :
    cpu.get_data m a false = .ok v := by
  cases a
  case Absolute x =>
    show (do
      let (bank2, addr2) ← cpu.raw_address (.Absolute x)
      let low ← m.get_byte bank2 addr2
      if false then do
        let addr1 ← checkedAdd16 addr2 1
        let high ← m.get_byte bank2 addr1
        (.ok (u16_from_le low high) : Except Fault Nat)
      else
        .ok low) = .ok v
    rw [hraw, bind_ok_eq]
    show (do
      let low ← m.get_byte bank addr
      if false then do
        let addr1 ← checkedAdd16 addr 1
        let high ← m.get_byte bank addr1
        (.ok (u16_from_le low high) : Except Fault Nat)
      else
        .ok low) = .ok v
    rw [hget, bind_ok_eq]
    rfl
  case AbsoluteLong b x =>
    show (do
      let (bank2, addr2) ← cpu.raw_address (.AbsoluteLong b x)
      let low ← m.get_byte bank2 addr2
      if false then do
        let addr1 ← checkedAdd16 addr2 1
        let high ← m.get_byte bank2 addr1
        (.ok (u16_from_le low high) : Except Fault Nat)
      else
        .ok low) = .ok v
    rw [hraw, bind_ok_eq]
    show (do
      let low ← m.get_byte bank addr
      if false then do
        let addr1 ← checkedAdd16 addr 1
        let high ← m.get_byte bank addr1
        (.ok (u16_from_le low high) : Except Fault Nat)
      else
        .ok low) = .ok v
    rw [hget, bind_ok_eq]
    rfl
  all_goals exact Except.noConfusion hraw

/-- Reading through `get_data` in 16-bit (wide) shape: two bytes,
little-endian. -/
theorem get_data_wide (cpu : Cpu) (m : MemoryMap) (a : Address)
    (bank addr lo hi : Nat) (hraw : cpu.raw_address a = .ok (bank, addr))
    (haddr1 : addr + 1 ≤ 0xFFFF)
    (hlow : m.get_byte bank addr = .ok lo)
    (hhigh : m.get_byte bank (addr + 1) = .ok hi) :
    cpu.get_data m a true = .ok (u16_from_le lo hi) := by
  have hadd : checkedAdd16 addr 1 = .ok (addr + 1) := by
    unfold checkedAdd16
    rw [if_pos haddr1]
  cases a
  case Absolute x =>
    show (do
      let (bank2, addr2) ← cpu.raw_address (.Absolute x)
      let low ← m.get_byte bank2 addr2
      if true then do
        let addr1 ← checkedAdd16 addr2 1
        let high ← m.get_byte bank2 addr1
        (.ok (u16_from_le low high) : Except Fault Nat)
      else
        .ok low) = .ok (u16_from_le lo hi)
    rw [hraw, bind_ok_eq]
    show (do
      let low ← m.get_byte bank addr
      if true then do
        let addr1 ← checkedAdd16 addr 1
        let high ← m.get_byte bank addr1
        (.ok (u16_from_le low high) : Except Fault Nat)
      else
        .ok low) = .ok (u16_from_le lo hi)
    rw [hlow, bind_ok_eq]
    show (do
      let addr1 ← checkedAdd16 addr 1
      let high ← m.get_byte bank addr1
      (.ok (u16_from_le lo high) : Except Fault Nat)) = .ok (u16_from_le lo hi)
    rw [hadd, bind_ok_eq]
    show (do
      let high ← m.get_byte bank (addr + 1)
      (.ok (u16_from_le lo high) : Except Fault Nat)) = .ok (u16_from_le lo hi)
    rw [hhigh, bind_ok_eq]
  case AbsoluteLong b x =>
    show (do
      let (bank2, addr2) ← cpu.raw_address (.AbsoluteLong b x)
      let low ← m.get_byte bank2 addr2
      if true then do
        let addr1 ← checkedAdd16 addr2 1
        let high ← m.get_byte bank2 addr1
        (.ok (u16_from_le low high) : Except Fault Nat)
      else
        .ok low) = .ok (u16_from_le lo hi)
    rw [hraw, bind_ok_eq]
    show (do
      let low ← m.get_byte bank addr
      if true then do
        let addr1 ← checkedAdd16 addr 1
        let high ← m.get_byte bank addr1
        (.ok (u16_from_le low high) : Except Fault Nat)
      else
        .ok low) = .ok (u16_from_le lo hi)
    rw [hlow, bind_ok_eq]
    show (do
      let addr1 ← checkedAdd16 addr 1
      let high ← m.get_byte bank addr1
      (.ok (u16_from_le lo high) : Except Fault Nat)) = .ok (u16_from_le lo hi)
    rw [hadd, bind_ok_eq]
    show (do
      let high ← m.get_byte bank (addr + 1)
      (.ok (u16_from_le lo high) : Except Fault Nat)) = .ok (u16_from_le lo hi)
    rw [hhigh, bind_ok_eq]
  all_goals exact Except.noConfusion hraw

/-- Storing the accumulator in 8-bit (narrow) mode writes only the low
byte. -/
theorem store_acc_narrow (cpu : Cpu) (m m1 : MemoryMap) (a : Address)
    (bank addr : Nat) (hraw : cpu.raw_address a = .ok (bank, addr))
    (hmode : cpu.registers.processor_status.get_accumulator = true)
    (hset : m.set_byte bank addr (cpu.registers.accumulator &&& 0xff) = .ok m1) :
    cpu.store_accumulator m a = .ok m1 := by
  cases a
  case Absolute x =>
    show (do
      let (bank2, addr2) ← cpu.raw_address (.Absolute x)
      let m2 ← m.set_byte bank2 addr2 (cpu.registers.accumulator &&& 0xff)
      if (!cpu.registers.processor_status.get_accumulator) then do
        let addr1 ← checkedAdd16 addr2 1
        m2.set_byte bank2 addr1 ((cpu.registers.accumulator &&& 0xff00) >>> 8)
      else
        .ok m2) = .ok m1
    rw [hraw, bind_ok_eq]
    show (do
      let m2 ← m.set_byte bank addr (cpu.registers.accumulator &&& 0xff)
      if (!cpu.registers.processor_status.get_accumulator) then do
        let addr1 ← checkedAdd16 addr 1
        m2.set_byte bank addr1 ((cpu.registers.accumulator &&& 0xff00) >>> 8)
      else
        .ok m2) = .ok m1
    rw [hset, bind_ok_eq, hmode]
    rfl
  case AbsoluteLong b x =>
    show (do
      let (bank2, addr2) ← cpu.raw_address (.AbsoluteLong b x)
      let m2 ← m.set_byte bank2 addr2 (cpu.registers.accumulator &&& 0xff)
      if (!cpu.registers.processor_status.get_accumulator) then do
        let addr1 ← checkedAdd16 addr2 1
        m2.set_byte bank2 addr1 ((cpu.registers.accumulator &&& 0xff00) >>> 8)
      else
        .ok m2) = .ok m1
    rw [hraw, bind_ok_eq]
    show (do
      let m2 ← m.set_byte bank addr (cpu.registers.accumulator &&& 0xff)
      if (!cpu.registers.processor_status.get_accumulator) then do
        let addr1 ← checkedAdd16 addr 1
        m2.set_byte bank addr1 ((cpu.registers.accumulator &&& 0xff00) >>> 8)
      else
        .ok m2) = .ok m1
    rw [hset, bind_ok_eq, hmode]
    rfl
  all_goals exact Except.noConfusion hraw

/-- Storing the accumulator in 16-bit (wide) mode writes the low byte at
the resolved address and the high byte at the next offset. -/
theorem store_acc_wide (cpu : Cpu) (m m1 m2 : MemoryMap) (a : Address)
    (bank addr : Nat) (hraw : cpu.raw_address a = .ok (bank, addr))
    (hmode : cpu.registers.processor_status.get_accumulator = false)
    (haddr1 : addr + 1 ≤ 0xFFFF)
    (hset1 : m.set_byte bank addr (cpu.registers.accumulator &&& 0xff) = .ok m1)
    (hset2 : m1.set_byte bank (addr + 1)
      ((cpu.registers.accumulator &&& 0xff00) >>> 8) = .ok m2) :
    cpu.store_accumulator m a = .ok m2 := by
  have hadd : checkedAdd16 addr 1 = .ok (addr + 1) := by
    unfold checkedAdd16
    rw [if_pos haddr1]
  cases a
  case Absolute x =>
    show (do
      let (bank2, addr2) ← cpu.raw_address (.Absolute x)
      let m3 ← m.set_byte bank2 addr2 (cpu.registers.accumulator &&& 0xff)
      if (!cpu.registers.processor_status.get_accumulator) then do
        let addr1 ← checkedAdd16 addr2 1
        m3.set_byte bank2 addr1 ((cpu.registers.accumulator &&& 0xff00) >>> 8)
      else
        .ok m3) = .ok m2
    rw [hraw, bind_ok_eq]
    show (do
      let m3 ← m.set_byte bank addr (cpu.registers.accumulator &&& 0xff)
      if (!cpu.registers.processor_status.get_accumulator) then do
        let addr1 ← checkedAdd16 addr 1
        m3.set_byte bank addr1 ((cpu.registers.accumulator &&& 0xff00) >>> 8)
      else
        .ok m3) = .ok m2
    rw [hset1, bind_ok_eq, hmode]
    show (do
      let addr1 ← checkedAdd16 addr 1
      m1.set_byte bank addr1 ((cpu.registers.accumulator &&& 0xff00) >>> 8)) = .ok m2
    rw [hadd, bind_ok_eq, hset2]
  case AbsoluteLong b x =>
    show (do
      let (bank2, addr2) ← cpu.raw_address (.AbsoluteLong b x)
      let m3 ← m.set_byte bank2 addr2 (cpu.registers.accumulator &&& 0xff)
      if (!cpu.registers.processor_status.get_accumulator) then do
        let addr1 ← checkedAdd16 addr2 1
        m3.set_byte bank2 addr1 ((cpu.registers.accumulator &&& 0xff00) >>> 8)
      else
        .ok m3) = .ok m2
    rw [hraw, bind_ok_eq]
    show (do
      let m3 ← m.set_byte bank addr (cpu.registers.accumulator &&& 0xff)
      if (!cpu.registers.processor_status.get_accumulator) then do
        let addr1 ← checkedAdd16 addr 1
        m3.set_byte bank addr1 ((cpu.registers.accumulator &&& 0xff00) >>> 8)
      else
        .ok m3) = .ok m2
    rw [hset1, bind_ok_eq, hmode]
    show (do
      let addr1 ← checkedAdd16 addr 1
      m1.set_byte bank addr1 ((cpu.registers.accumulator &&& 0xff00) >>> 8)) = .ok m2
    rw [hadd, bind_ok_eq, hset2]
  all_goals exact Except.noConfusion hraw

/-- Loading the accumulator stores the fetched data into the full 16-bit
accumulator register. -/
theorem load_acc_value (cpu : Cpu) (m : MemoryMap) (a : Address) (v : Nat)
    (h : cpu.get_data m a (!cpu.registers.processor_status.get_accumulator)
      = .ok v) :
    cpu.load_accumulator m a
      = .ok { cpu with registers := { cpu.registers with accumulator := v } } := by
  show Except.map
      (fun data => ({ cpu with registers :=
        { cpu.registers with accumulator := data } } : Cpu))
      (cpu.get_data m a (!cpu.registers.processor_status.get_accumulator))
    = .ok { cpu with registers := { cpu.registers with accumulator := v } }
  rw [h]
  rfl

/-- Claim C7 (amended): under a same-width store-then-load round trip at a
writable, readable-back resolved address, the 16-bit mode reproduces the
accumulator bit-for-bit; the 8-bit mode reproduces only the low byte — the
load zero-extends it into the full register, so the high byte is zeroed
rather than preserved. -/
theorem c7_store_load_roundtrip :
    (∀ (cpu : Cpu) (m m1 : MemoryMap) (a : Address) (bank addr : Nat),
      cpu.raw_address a = .ok (bank, addr) →
      cpu.registers.processor_status.get_accumulator = true →
      m.set_byte bank addr (cpu.registers.accumulator &&& 0xff) = .ok m1 →
      m1.get_byte bank addr = .ok (cpu.registers.accumulator &&& 0xff) →
      cpu.store_accumulator m a = .ok m1 ∧
      ∃ cpu' : Cpu, cpu.load_accumulator m1 a = .ok cpu' ∧
        cpu'.registers.accumulator = cpu.registers.accumulator &&& 0xff) ∧
    (∀ (cpu : Cpu) (m m1 m2 : MemoryMap) (a : Address) (bank addr : Nat),
      cpu.raw_address a = .ok (bank, addr) →
      cpu.registers.processor_status.get_accumulator = false →
      cpu.registers.accumulator ≤ 0xFFFF →
      addr + 1 ≤ 0xFFFF →
      m.set_byte bank addr (cpu.registers.accumulator &&& 0xff) = .ok m1 →
      m1.set_byte bank (addr + 1)
        ((cpu.registers.accumulator &&& 0xff00) >>> 8) = .ok m2 →
      m2.get_byte bank addr = .ok (cpu.registers.accumulator &&& 0xff) →
      m2.get_byte bank (addr + 1)
        = .ok ((cpu.registers.accumulator &&& 0xff00) >>> 8) →
      cpu.store_accumulator m a = .ok m2 ∧
      ∃ cpu' : Cpu, cpu.load_accumulator m2 a = .ok cpu' ∧
        cpu'.registers.accumulator = cpu.registers.accumulator) := by
  constructor
  · intro cpu m m1 a bank addr hraw hmode hset hget
    refine ⟨store_acc_narrow cpu m m1 a bank addr hraw hmode hset, ?_⟩
    have hgd : cpu.get_data m1 a (!cpu.registers.processor_status.get_accumulator)
        = .ok (cpu.registers.accumulator &&& 0xff) := by
      rw [hmode]
      exact get_data_narrow cpu m1 a bank addr _ hraw hget
    exact ⟨_, load_acc_value cpu m1 a _ hgd, rfl⟩
  · intro cpu m m1 m2 a bank addr hraw hmode hacc haddr1 hset1 hset2 hget1 hget2
    refine ⟨store_acc_wide cpu m m1 m2 a bank addr hraw hmode haddr1 hset1 hset2, ?_⟩
    have hgd : cpu.get_data m2 a (!cpu.registers.processor_status.get_accumulator)
        = .ok cpu.registers.accumulator := by
      rw [hmode]
      have hw := get_data_wide cpu m2 a bank addr _ _ hraw haddr1 hget1 hget2
      rw [u16_reassemble cpu.registers.accumulator hacc] at hw
      exact hw
    exact ⟨_, load_acc_value cpu m2 a _ hgd, rfl⟩

/-- A CPU fixture in 8-bit accumulator mode holding `0x1234`. -/
def c7_cpu : Cpu :=
  { native_interrupts := ⟨0, 0, 0, 0, 0, 0⟩
    emulation_interrupts := ⟨0, 0, 0, 0, 0, 0⟩
    registers := { CpuRegisters.init with
      accumulator := 0x1234, processor_status := ⟨0x20⟩ } }

/-- The memory map after the 8-bit store of `0x34` to the screen-display
register. -/
def c7_m1 : MemoryMap :=
  { mem0 with hardware := { mem0.hardware with screen_display := 0x34 } }

/-- The CPU after loading back `0x34` into the accumulator. -/
def c7_cpu_after : Cpu :=
  { c7_cpu with registers := { c7_cpu.registers with accumulator := 0x34 } }

/-- Claim C7 (counterexample): in 8-bit mode with accumulator `0x1234`,
storing to the writable register address `0x2100` and loading back from it
succeeds but yields accumulator `0x0034`, not the original `0x1234` — the
round trip is not bit-for-bit in 8-bit mode. -/
theorem c7_counterexample :
    c7_cpu.registers.processor_status.get_accumulator = true ∧
    c7_cpu.registers.accumulator = 0x1234 ∧
    c7_cpu.store_accumulator mem0 (.Absolute 0x2100) = .ok c7_m1 ∧
    c7_m1.get_byte 0 0x2100 = .ok 0x34 ∧
    c7_cpu.load_accumulator c7_m1 (.Absolute 0x2100) = .ok c7_cpu_after ∧
    c7_cpu_after.registers.accumulator = 0x34 ∧ (0x34 : Nat) ≠ 0x1234 :=
  ⟨by decide, by decide, by rfl, by rfl, by rfl, by rfl, by decide⟩

/-- A CPU fixture in 16-bit accumulator mode holding `0xBEEF`. -/
def c7w_cpu : Cpu :=
  { native_interrupts := ⟨0, 0, 0, 0, 0, 0⟩
    emulation_interrupts := ⟨0, 0, 0, 0, 0, 0⟩
    registers := { CpuRegisters.init with accumulator := 0xBEEF } }

/-- The memory map after the low-byte write to APU port 0. -/
def c7w_m1 : MemoryMap :=
  { mem0 with hardware := { mem0.hardware with apu_io0 := 0xEF } }

/-- The memory map after the high-byte write to APU port 1. -/
def c7w_m2 : MemoryMap :=
  { c7w_m1 with hardware := { c7w_m1.hardware with apu_io1 := 0xBE } }

/-- Witness for the amended C7: a 16-bit round trip through the APU ports
at `0x2140`/`0x2141` restores accumulator `0xBEEF` exactly. -/
theorem c7_witness :
    c7w_cpu.raw_address (.Absolute 0x2140) = .ok (0, 0x2140) ∧
    c7w_cpu.registers.processor_status.get_accumulator = false ∧
    c7w_cpu.registers.accumulator ≤ 0xFFFF ∧
    (0x2140 : Nat) + 1 ≤ 0xFFFF ∧
    mem0.set_byte 0 0x2140 (c7w_cpu.registers.accumulator &&& 0xff) = .ok c7w_m1 ∧
    c7w_m1.set_byte 0 (0x2140 + 1)
      ((c7w_cpu.registers.accumulator &&& 0xff00) >>> 8) = .ok c7w_m2 ∧
    c7w_m2.get_byte 0 0x2140 = .ok (c7w_cpu.registers.accumulator &&& 0xff) ∧
    c7w_m2.get_byte 0 (0x2140 + 1)
      = .ok ((c7w_cpu.registers.accumulator &&& 0xff00) >>> 8) ∧
    (c7w_cpu.store_accumulator mem0 (.Absolute 0x2140) = .ok c7w_m2 ∧
      ∃ cpu' : Cpu, c7w_cpu.load_accumulator c7w_m2 (.Absolute 0x2140) = .ok cpu' ∧
        cpu'.registers.accumulator = c7w_cpu.registers.accumulator) := by
  have hraw : c7w_cpu.raw_address (.Absolute 0x2140) = .ok (0, 0x2140) := by rfl
  have hset1 : mem0.set_byte 0 0x2140
      (c7w_cpu.registers.accumulator &&& 0xff) = .ok c7w_m1 := by rfl
  have hset2 : c7w_m1.set_byte 0 (0x2140 + 1)
      ((c7w_cpu.registers.accumulator &&& 0xff00) >>> 8) = .ok c7w_m2 := by rfl
  have hget1 : c7w_m2.get_byte 0 0x2140
      = .ok (c7w_cpu.registers.accumulator &&& 0xff) := by rfl
  have hget2 : c7w_m2.get_byte 0 (0x2140 + 1)
      = .ok ((c7w_cpu.registers.accumulator &&& 0xff00) >>> 8) := by rfl
  exact ⟨hraw, by decide, by decide, by decide, hset1, hset2, hget1, hget2,
    c7_store_load_roundtrip.2 c7w_cpu mem0 c7w_m1 c7w_m2 (.Absolute 0x2140)
      0 0x2140 hraw (by decide) (by decide) (by decide) hset1 hset2 hget1 hget2⟩

/-! ## Claim C5 -/

/-- A 32 KiB ROM whose program bytes `78 18 A9 34 12 8D 00 21` sit at the
start of the LoROM window (address `0x8000` of bank `0x00`), with a LoROM
mapping-mode byte and an emulation-mode RESET vector of `0x8000` in the
header window. -/
def c5_rom : Nat → Nat := fun i =>
  if i = 0 then 0x78 else if i = 1 then 0x18 else if i = 2 then 0xa9
  else if i = 3 then 0x34 else if i = 4 then 0x12 else if i = 5 then 0x8d
  else if i = 6 then 0x00 else if i = 7 then 0x21
  else if i = 0x7fd5 then 0x20
  else if i = 0x7ffd then 0x80 else 0

def c5_mem : MemoryMap := MemoryMap.new c5_rom 0x8000

/-- Construct the CPU from the C5 ROM header, reset it, and step `n`
times. -/
def c5_run (n : Nat) : Except Fault (Cpu × MemoryMap) := do
  let cpu ← Cpu.new c5_mem
  ticks n cpu.reset c5_mem

/-- The instruction fetched after `n` steps of the C5 scenario. -/
def c5_fetch (n : Nat) : Except Fault Instruction := do
  let (cpu, memory) ← c5_run n
  cpu.fetch_instruction memory

/-- Claim C5 (counterexample): on the C5 ROM the fourth step does not
complete — after reset the accumulator-width flag is `1`, so the third
instruction decodes as an 8-bit `LoadAccumulator` consuming only 2 bytes,
leaving the program counter at reset-vector `+ 4` (not `+ 8`), and the
fourth fetch hits the operand byte `0x12` as an opcode and faults with
`UnimplementedOpcode 0x12`. -/
theorem c5_counterexample :
    (c5_run 3).toOption.map (fun cm => cm.1.registers.program_counter)
      = some 0x8004 ∧
    c5_run 4 = .error (.unimplementedOpcode 0x12) ∧
    (0x8004 : Nat) ≠ 0x8000 + 8 :=
  ⟨rfl, rfl, by decide⟩

/-- Claim C5 (amended): after reset (program counter at the emulation-mode
RESET vector `0x8000`, accumulator-width flag `1`), the first three steps
execute `DisableInterruptRequests`, `ClearCarry`, and an 8-bit
`LoadAccumulator` of `0x34`, leaving the program counter at `0x8004`
(`1 + 1 + 2` bytes past the vector) and accumulator `0x34`; the fourth
step faults with `UnimplementedOpcode 0x12`, so the claimed 16-bit load
and the store to `0x2100` never execute. -/
theorem c5_bootstrap_8bit :
    c5_fetch 0 = .ok .DisableInterruptRequests ∧
    c5_fetch 1 = .ok .ClearCarry ∧
    c5_fetch 2 = .ok (.LoadAccumulator (.Immediate8 0x34)) ∧
    (c5_run 0).toOption.map (fun cm =>
      (cm.1.registers.program_counter,
       cm.1.registers.processor_status.get_accumulator)) = some (0x8000, true) ∧
    (c5_run 3).toOption.map (fun cm =>
      (cm.1.registers.program_counter, cm.1.registers.accumulator))
      = some (0x8004, 0x34) ∧
    c5_run 4 = .error (.unimplementedOpcode 0x12) :=
  ⟨rfl, rfl, rfl, rfl, rfl, rfl⟩
